import Mathlib

set_option maxHeartbeats 1000000
set_option maxRecDepth 4000

/-!
Verification development for the machineConnector workflow engine.

The definitions below are shallow embeddings of the Python sources:
* `src/security/command_filter.py` and `src/prompts/safety.py` (the Safety Gate),
* `src/tools/command_executor.py` (the Process Executor),
* `src/graph/nodes.py`, `src/graph/edges.py`, `src/graph/workflow.py` and the
  session-state initialisation in `src/main.py` (the Workflow Engine).

External collaborators (the LLM generation/validation/analysis services, the
human decision, and the operating-system subprocess) are modelled as an event
stream consumed by the step function, one event per external outcome a node
awaits.  Everything else is translated directly from the source.
-/

namespace MachineConnector

/-! ## Safety Gate: `src/security/command_filter.py` + `src/prompts/safety.py`

The safety patterns use only a small regex fragment: literal characters,
`.` and `.*`, the class `\s` (optionally with `+`), and the escape `\\`.
We embed exactly that fragment.  `re.search` with `re.IGNORECASE` is modelled
by `reSearch`: match at any start position, case-folding both sides, with `.`
not matching a newline (Python default, no DOTALL). -/

/-- Python `\s` for ASCII input: space, tab, newline, carriage return,
vertical tab, form feed. -/
def isPySpace (c : Char) : Bool :=
  c == ' ' || c == '\t' || c == '\n' || c == '\r' || c == '\x0b' || c == '\x0c'

/-- Tokens of the regex fragment used by the safety patterns. -/
inductive RTok where
  | ch (c : Char)
  | dot
  | anyStar
  | ws
  | wsPlus
  deriving DecidableEq, Repr

/-- Parse one of the safety-pattern regex strings into tokens.
Handles exactly the constructs those patterns use: `.*`, `.`, `\s+`, `\s`,
`\\` (a literal backslash), and literal characters. -/
def parseRegex : List Char → List RTok
  | [] => []
  | '.' :: '*' :: rest => .anyStar :: parseRegex rest
  | '.' :: rest => .dot :: parseRegex rest
  | '\\' :: 's' :: '+' :: rest => .wsPlus :: parseRegex rest
  | '\\' :: 's' :: rest => .ws :: parseRegex rest
  | '\\' :: '\\' :: rest => .ch '\\' :: parseRegex rest
  | c :: rest => .ch c :: parseRegex rest

/-- Backtracking helper for `.*`: try the continuation `m` at the current
position, else skip one non-newline character and repeat. -/
def starMatch (m : List Char → Bool) : List Char → Bool
  | [] => m []
  | d :: ds => m (d :: ds) || ((d != '\n') && starMatch m ds)

/-- Backtracking helper for `\s+`: consume one or more whitespace characters,
then try the continuation `m`. -/
def wsPlusMatch (m : List Char → Bool) : List Char → Bool
  | [] => false
  | d :: ds => isPySpace d && (m ds || wsPlusMatch m ds)

/-- Does the token list match some prefix of the character list?
Case-insensitive on literals; `.*`/`.` do not cross a newline;
`\s+` consumes one or more whitespace characters (backtracking). -/
def matchToks : List RTok → List Char → Bool
  | [], _ => true
  | .ch _ :: _, [] => false
  | .ch c :: rest, d :: ds => (c.toLower == d.toLower) && matchToks rest ds
  | .dot :: _, [] => false
  | .dot :: rest, d :: ds => (d != '\n') && matchToks rest ds
  | .ws :: _, [] => false
  | .ws :: rest, d :: ds => isPySpace d && matchToks rest ds
  | .wsPlus :: rest, ds => wsPlusMatch (matchToks rest) ds
  | .anyStar :: rest, ds => starMatch (matchToks rest) ds

/-- Does the token list match starting at some position?  This is Python
`re.search` restricted to our fragment. -/
def searchToks (toks : List RTok) : List Char → Bool
  | [] => matchToks toks []
  | d :: ds => matchToks toks (d :: ds) || searchToks toks ds

/-- `re.search(pat, command, re.IGNORECASE) is not None` for the fragment. -/
def reSearch (pat : String) (command : String) : Bool :=
  searchToks (parseRegex pat.data) command.data

/-- `DANGEROUS_PATTERNS` from `src/prompts/safety.py`, verbatim
(Python raw strings transcribed into Lean escapes). -/
def DANGEROUS_PATTERNS : List String := [
  "Remove-Item.*-Recurse.*-Force",
  "Format-Volume",
  "Stop-Computer",
  "Restart-Computer",
  "Remove-Item.*\\\\Windows",
  "Set-ItemProperty.*HKLM",
  "Invoke-Expression",
  "iex\\s",
  "Start-Process.*-Verb RunAs",
  "Disable-WindowsDefender",
  "Set-ExecutionPolicy.*Unrestricted",
  "Remove-Item.*-Path\\s+C:\\\\",
  "Clear-RecycleBin.*-Force"
]

/-- `SUSPICIOUS_PATTERNS` from `src/prompts/safety.py`, verbatim. -/
def SUSPICIOUS_PATTERNS : List String := [
  "Remove-Item",
  "Clear-RecycleBin",
  "New-NetFirewallRule",
  "Set-Service",
  "Stop-Process",
  "Remove-Computer",
  "Disable-"
]

/-- Return value of `CommandFilter.assess`. -/
structure Assessment where
  level : String
  matched_patterns : List String
  warnings : List String
  allow : Bool
  deriving DecidableEq, Repr

/-- `CommandFilter.assess` from `src/security/command_filter.py`:
scan the dangerous patterns; scan the suspicious patterns only when no
dangerous pattern matched; classify and set `allow`. -/
def CommandFilter.assess (command : String) : Assessment :=
  let matched_dangerous := DANGEROUS_PATTERNS.filter (fun p => reSearch p command)
  let matched_suspicious :=
    if matched_dangerous.isEmpty then
      SUSPICIOUS_PATTERNS.filter (fun p => reSearch p command)
    else []
  let warnings :=
    matched_dangerous.map
      (fun p => "DANGER: Potentially destructive operation detected matching: " ++ p) ++
    matched_suspicious.map
      (fun p => "CAUTION: Potentially risky operation detected matching: " ++ p)
  if !matched_dangerous.isEmpty then
    { level := "dangerous", matched_patterns := matched_dangerous ++ matched_suspicious,
      warnings := warnings, allow := false }
  else if !matched_suspicious.isEmpty then
    { level := "suspicious", matched_patterns := matched_dangerous ++ matched_suspicious,
      warnings := warnings, allow := true }
  else
    { level := "safe", matched_patterns := matched_dangerous ++ matched_suspicious,
      warnings := warnings, allow := true }

/-! ## Process Executor: `src/tools/command_executor.py`

`PowerShellExecutor.execute`, `.execute_cmd` and `.execute_bash` all follow the
same shape: launch a subprocess, await it under a wall-clock timeout, decode
and truncate the captured output, and turn any raised exception into a normal
result record.  The three possible outcomes of the subprocess interaction
(normal completion, timeout, launch/OS failure) are modelled by
`SubprocOutcome`; each executor method is then a total function from that
outcome to the result record it returns.  The `execution_time` field (real
wall-clock time) is not modelled. -/

/-- Outcome of the awaited subprocess call inside an executor method. -/
inductive SubprocOutcome where
  | completed (stdout stderr : String) (returncode : Int)
  | timedOut
  | launchFail (msg : String)
  deriving DecidableEq, Repr

/-- The result dictionary returned by the executor methods.  `error` is the
extra key present only in the exception branch; `shell_type` is the extra key
present only in the cmd/bash results. -/
structure ExecResult where
  stdout : String
  stderr : String
  return_code : Int
  timed_out : Bool
  error : Option String
  shell_type : Option String
  deriving DecidableEq, Repr

/-- Output truncation from the executor: cut at `max_output_size` characters
and append the marker, exactly when the length exceeds the bound. -/
def truncOut (max_output_size : Nat) (marker : String) (s : String) : String :=
  if s.length > max_output_size then String.mk (s.data.take max_output_size) ++ marker else s

/-- `PowerShellExecutor.execute`: PowerShell execution.  On completion the
captured streams are decoded and truncated; on timeout the process is killed,
`stdout` is empty, `stderr` carries the timeout message, and the return code
is forced to `-1`; on a launch failure the exception text becomes `stderr`
and the record (not an exception) is returned with `return_code = -1`. -/
def PowerShellExecutor.execute (max_output_size : Nat) (timeout : Nat)
    (o : SubprocOutcome) : ExecResult :=
  match o with
  | .completed out err rc =>
      { stdout := truncOut max_output_size "\n... (output truncated)" out,
        stderr := truncOut max_output_size "\n... (error output truncated)" err,
        return_code := rc, timed_out := false, error := none, shell_type := none }
  | .timedOut =>
      { stdout := truncOut max_output_size "\n... (output truncated)" "",
        stderr := truncOut max_output_size "\n... (error output truncated)"
          ("Command timed out after " ++ toString timeout ++ " seconds"),
        return_code := -1, timed_out := true, error := none, shell_type := none }
  | .launchFail msg =>
      { stdout := "", stderr := msg, return_code := -1, timed_out := false,
        error := some msg, shell_type := none }

/-- `PowerShellExecutor.execute_cmd`: identical logic, `shell_type = "cmd"`
in the returned record. -/
def PowerShellExecutor.execute_cmd (max_output_size : Nat) (timeout : Nat)
    (o : SubprocOutcome) : ExecResult :=
  { PowerShellExecutor.execute max_output_size timeout o with shell_type := some "cmd" }

/-- `PowerShellExecutor.execute_bash`: identical logic, `shell_type = "bash"`
in the returned record. -/
def PowerShellExecutor.execute_bash (max_output_size : Nat) (timeout : Nat)
    (o : SubprocOutcome) : ExecResult :=
  { PowerShellExecutor.execute max_output_size timeout o with shell_type := some "bash" }

/-! ## Settings: `src/config/settings.py` (defaults) -/

/-- `Settings.max_output_size` default. -/
def settingsMaxOutputSize : Nat := 1048576

/-- `Settings.max_execution_timeout` default. -/
def settingsMaxExecutionTimeout : Nat := 30

/-- `Settings.max_retries` default. -/
def settingsMaxRetries : Nat := 3

/-! ## Session state: `CommandState`

`src/graph/state.py` is not present in the source tree; the schema is
reconstructed from the fields read and written by `src/graph/nodes.py`,
`src/graph/edges.py` and the initial state built in `src/main.py`.
Timestamps, message/history lists and the conversation-memory fields are not
modelled (no routing decision reads them). -/

/-- The `safety_assessment` record stored in the state (the keys the engine
reads: `level`, `warnings`, `allow`). -/
structure SafetyAssessment where
  level : String
  warnings : List String
  allow : Bool
  deriving DecidableEq, Repr

/-- The session state threaded through the graph. -/
structure CommandState where
  user_input : String
  generated_command : Option String
  command_explanation : Option String
  safety_assessment : Option SafetyAssessment
  shell_type : String
  attempted_shells : List String
  user_confirmed : Option Bool
  user_feedback : Option String
  execution_status : String
  execution_result : Option ExecResult
  validation_passed : Option Bool
  validation_reasoning : Option String
  analysis_result : Option String
  error_message : Option String
  error_type : Option String
  retry_count : Nat
  max_retries : Nat
  requires_analysis : Bool
  next_step : String
  deriving DecidableEq, Repr

/-- Modelled from the spec: `graph/state.py` (the `CommandState` schema with
its field reducers) is missing from the source tree.  The spec says
`attempted_shells: set<shell_kind>` "grows monotonically, never shrinks" and
"never contains duplicates", so the merge of a node's `attempted_shells`
update into the existing state value is modelled as an order-preserving
set union. -/
def mergeShells (old upd : List String) : List String :=
  old ++ upd.filter (fun sh => !old.contains sh)

/-- The initial session state built in `src/main.py` (`initial_state`). -/
def initState (ui : String) (maxRetries : Nat) : CommandState :=
  { user_input := ui, generated_command := none, command_explanation := none,
    safety_assessment := none, shell_type := "powershell", attempted_shells := [],
    user_confirmed := none, user_feedback := none, execution_status := "pending",
    execution_result := none, validation_passed := none, validation_reasoning := none,
    analysis_result := none, error_message := none, error_type := none,
    retry_count := 0, max_retries := maxRetries, requires_analysis := false,
    next_step := "generate" }

/-! ## Graph nodes: `src/graph/nodes.py` -/

/-- Is a needle a prefix of a haystack (character lists)? -/
def listPrefixOf : List Char → List Char → Bool
  | [], _ => true
  | _ :: _, [] => false
  | a :: as, b :: bs => (a == b) && listPrefixOf as bs

/-- Does a needle occur inside a haystack (character lists)?  This is the
Python `in` test on strings. -/
def listInfixOf (needle : List Char) : List Char → Bool
  | [] => listPrefixOf needle []
  | b :: bs => listPrefixOf needle (b :: bs) || listInfixOf needle bs

/-- Python `needle in hay` on strings. -/
def containsSub (hay needle : String) : Bool :=
  listInfixOf needle.data hay.data

/-- `analysis_keywords` in `generate_command_node`. -/
def analysisKeywords : List String :=
  ["explain", "analyze", "check what", "what is the purpose",
   "understand", "summarize", "review", "describe", "tell me about"]

/-- `file_operation_keywords` in `generate_command_node`. -/
def fileOperationKeywords : List String :=
  ["read", "checkout", "clone", "download", "cat", "type"]

/-- Python `str.lower()` (character-wise, as for the ASCII inputs here). -/
def strToLower (s : String) : String :=
  String.mk (s.data.map Char.toLower)

/-- The `requires_analysis` detection in `generate_command_node`: set only
when the lowercased input contains both an analysis keyword and a
file-operation keyword. -/
def detectAnalysis (ui : String) : Bool :=
  let lower := strToLower ui
  analysisKeywords.any (fun kw => containsSub lower kw) &&
    fileOperationKeywords.any (fun op => containsSub lower op)

/-- `generate_command_node`, success branch: store the generated command and
explanation, run the safety filter, combine the collaborator warnings with
the filter warnings, detect the analysis intent, and request `confirm`.
(The `llm_safety`/`filter_patterns` keys and the message log are not
modelled; no routing decision reads them.) -/
def generateNodeOk (s : CommandState) (command explanationText : String)
    (genWarnings : List String) : CommandState :=
  let a := CommandFilter.assess command
  { s with
    generated_command := some command,
    command_explanation := some explanationText,
    safety_assessment := some { level := a.level, warnings := genWarnings ++ a.warnings,
                                allow := a.allow },
    requires_analysis := detectAnalysis s.user_input,
    next_step := "confirm" }

/-- `generate_command_node`, exception branch: record the generation error
and request `end`. -/
def generateNodeFail (s : CommandState) (msg : String) : CommandState :=
  { s with
    error_message := some msg,
    error_type := some "generation_error",
    execution_status := "error",
    next_step := "end" }

/-- `await_confirmation_node`, safety-block branch: force the confirmation
to rejected, auto-fill the feedback text, record the error, request `end`. -/
def blockedUpdate (s : CommandState) (a : SafetyAssessment) : CommandState :=
  { s with
    user_confirmed := some false,
    user_feedback := some "Command blocked due to safety concerns",
    error_message := some ("Command blocked: " ++ String.intercalate "; " a.warnings),
    next_step := "end" }

/-- The resume merge performed by `src/main.py` after the confirmation
interrupt: write the human decision into the checkpointed state. -/
def mergeDecision (s : CommandState) (conf : Bool) (fb : Option String) : CommandState :=
  { s with user_confirmed := some conf, user_feedback := fb }

/-- Shell dispatch in `execute_command_node`: `cmd` and `bash` go to their
dedicated executor methods, anything else defaults to PowerShell. -/
def runShell (shell : String) (o : SubprocOutcome) : ExecResult :=
  if shell == "cmd" then
    PowerShellExecutor.execute_cmd settingsMaxOutputSize settingsMaxExecutionTimeout o
  else if shell == "bash" then
    PowerShellExecutor.execute_bash settingsMaxOutputSize settingsMaxExecutionTimeout o
  else
    PowerShellExecutor.execute settingsMaxOutputSize settingsMaxExecutionTimeout o

/-- `execute_command_node`, normal branch (the executor returned a record):
classify the result, and request `try_alternative` when it failed and the
current shell is not yet in `attempted_shells`, else request `validate`.
Both branches contribute the current shell to `attempted_shells`. -/
def executeNodeDone (s : CommandState) (o : SubprocOutcome) : CommandState :=
  let r := runShell s.shell_type o
  let status := if r.return_code == 0 then "success" else "failed"
  let hasError := r.error.isSome || r.return_code != 0
  if hasError && !(s.attempted_shells.contains s.shell_type) then
    { s with
      execution_status := status,
      execution_result := some r,
      attempted_shells := mergeShells s.attempted_shells [s.shell_type],
      next_step := "try_alternative" }
  else
    { s with
      execution_status := status,
      execution_result := some r,
      attempted_shells := mergeShells s.attempted_shells [s.shell_type],
      next_step := "validate" }

/-- `execute_command_node`, exception branch: record the execution error;
request `try_alternative` when the current shell is untried (contributing it
to `attempted_shells`), else request `present` (skip validation). -/
def executeNodeRaise (s : CommandState) (msg : String) : CommandState :=
  if !(s.attempted_shells.contains s.shell_type) then
    { s with
      execution_status := "error",
      error_message := some msg,
      error_type := some "execution_error",
      attempted_shells := mergeShells s.attempted_shells [s.shell_type],
      next_step := "try_alternative" }
  else
    { s with
      execution_status := "error",
      error_message := some msg,
      error_type := some "execution_error",
      next_step := "present" }

/-- `validate_result_node`, success branch. -/
def validateNodeOk (s : CommandState) (passed : Option Bool) (reasoning : String) :
    CommandState :=
  { s with
    validation_passed := passed,
    validation_reasoning := some reasoning,
    next_step := "present" }

/-- `validate_result_node`, exception branch: validation failure never aborts
the flow; it is recorded and routing still proceeds. -/
def validateNodeFail (s : CommandState) (msg : String) : CommandState :=
  { s with
    validation_passed := none,
    validation_reasoning := some ("Validation failed: " ++ msg),
    next_step := "present" }

/-- `present_result_node`: prepares display data and requests `end`
(the history entry it appends is not modelled; nothing reads it). -/
def presentNode (s : CommandState) : CommandState :=
  { s with next_step := "end" }

/-- `retry_node`: increment `retry_count`; when the new count reaches
`max_retries`, record the retries-exhausted error and request `end`, else
request `generate`. -/
def retryNode (s : CommandState) : CommandState :=
  let rc := s.retry_count + 1
  if rc ≥ s.max_retries then
    { s with
      next_step := "end",
      error_message := some "Maximum retries exceeded",
      retry_count := rc }
  else
    { s with retry_count := rc, next_step := "generate" }

/-- `analyze_content_node`, a branch that produced an analysis.  The node's
file-system and LLM interactions are external; every successful branch stores
an `analysis_result` and requests `present`. -/
def analyzeNodeOk (s : CommandState) (res : String) : CommandState :=
  { s with analysis_result := some res, next_step := "present" }

/-- `analyze_content_node`, no-content branch. -/
def analyzeNodeNoContent (s : CommandState) : CommandState :=
  { s with
    error_message := some ("Could not find content to analyze. " ++
      "Please ensure the file exists or command output is available."),
    next_step := "present" }

/-- `analyze_content_node`, exception branch. -/
def analyzeNodeFail (s : CommandState) (msg : String) : CommandState :=
  { s with
    error_message := some ("Analysis failed: " ++ msg),
    error_type := some "analysis_error",
    next_step := "present" }

/-- `shell_order` in `try_alternative_shell_node`. -/
def shellOrder : List String := ["powershell", "cmd", "bash"]

/-- The shell-selection loop in `try_alternative_shell_node`: first shell in
the fixed priority order not yet attempted. -/
def nextUntriedShell (attempted : List String) : Option String :=
  shellOrder.find? (fun sh => !attempted.contains sh)

/-- `try_alternative_shell_node`, all-shells-exhausted branch. -/
def tryAltExhausted (s : CommandState) : CommandState :=
  { s with
    error_message := some ("Execution failed in all shells: " ++
      String.intercalate ", " s.attempted_shells),
    next_step := "present" }

/-- `try_alternative_shell_node`, success branch: regenerate for the chosen
shell, re-assess safety, auto-confirm, request `execute`. -/
def tryAltOk (s : CommandState) (nextShell command explanationText : String) :
    CommandState :=
  let a := CommandFilter.assess command
  { s with
    generated_command := some command,
    command_explanation := some ("Alternative " ++ nextShell ++ " command: " ++
      explanationText),
    safety_assessment := some { level := a.level, warnings := a.warnings, allow := a.allow },
    shell_type := nextShell,
    user_confirmed := some true,
    next_step := "execute" }

/-- `try_alternative_shell_node`, generation-exception branch. -/
def tryAltFail (s : CommandState) (nextShell msg : String) : CommandState :=
  { s with
    error_message := some ("Failed to generate " ++ nextShell ++ " alternative: " ++ msg),
    error_type := some "alternative_generation_error",
    next_step := "present" }

/-- Modelled from the spec: `intelligent_retry_node` is imported by
`src/graph/workflow.py` but missing from `src/graph/nodes.py`.  The spec says
the stage "only rewrites `generated_command`" before re-executing. -/
def intelligentRetryNode (s : CommandState) (command : String) : CommandState :=
  { s with generated_command := some command }

/-! ## Routers: `src/graph/edges.py` and `src/graph/workflow.py` -/

/-- The stages of the graph.  `terminal` is LangGraph `END`; `fault` stands
for a node raising an unhandled exception (aborting the run). -/
inductive Node where
  | generate
  | awaitConfirmation
  | execute
  | validate
  | analyzeContent
  | present
  | retry
  | tryAlternativeShell
  | intelligentRetry
  | terminal
  | fault
  deriving DecidableEq, Repr

/-- Python truthiness of an optional string field. -/
def truthy : Option String → Bool
  | none => false
  | some t => !(t == "")

/-- `route_after_confirmation`: confirmed goes to execution; a rejection
with (truthy) feedback goes to retry; otherwise end. -/
def routeAfterConfirmation (s : CommandState) : Node :=
  if s.user_confirmed.getD false then .execute
  else if truthy s.user_feedback then .retry
  else .terminal

/-- `route_after_execution`: the explicit `next_step` hints win; otherwise a
success-or-failed status validates and anything else presents. -/
def routeAfterExecution (s : CommandState) : Node :=
  if s.next_step == "intelligent_retry" then .intelligentRetry
  else if s.next_step == "try_alternative" then .tryAlternativeShell
  else if s.execution_status == "success" || s.execution_status == "failed" then .validate
  else .present

/-- `route_after_retry`: regenerate while retries remain, else end. -/
def routeAfterRetry (s : CommandState) : Node :=
  if s.retry_count < s.max_retries then .generate else .terminal

/-- `route_after_validation` (defined inline in `create_workflow`). -/
def routeAfterValidation (s : CommandState) : Node :=
  if s.requires_analysis then .analyzeContent else .present

/-! ## The workflow step function

One step = one node execution followed by the edge wired in
`create_workflow`.  Each external interaction a node awaits (LLM call,
subprocess, human decision) is an `Event`; a node with no external
interaction consumes `tick`.  `step` returns `none` when the event does not
match what the current stage awaits. -/

/-- The external outcomes consumed by the nodes. -/
inductive Event where
  | genOk (command explanationText : String) (warnings : List String)
  | genFail (msg : String)
  | human (confirmed : Bool) (feedback : Option String)
  | tick
  | execDone (o : SubprocOutcome)
  | execRaise (msg : String)
  | valOk (passed : Option Bool) (reasoning : String)
  | valFail (msg : String)
  | analysisOk (res : String)
  | analysisNoContent
  | analysisFail (msg : String)
  | altGenOk (command explanationText : String)
  | altGenFail (msg : String)
  | intelRewrite (command : String)
  deriving DecidableEq, Repr

/-- A point of the run: current stage plus session state. -/
structure Config where
  stage : Node
  state : CommandState
  deriving DecidableEq, Repr

/-- One engine step.  Edges wired in `create_workflow`:
`generate_command → await_confirmation` is unconditional (the node's
`next_step` hint is not consulted); `await_confirmation` routes through
`route_after_confirmation` (after suspending for the human decision when no
decision is recorded and the safety filter allows the command; a missing
`safety_assessment` faults the node); `execute_command` routes through
`route_after_execution`; `validate_result` through `route_after_validation`;
`analyze_content → present_result` and `present_result → END` are
unconditional; `retry_node` routes through `route_after_retry`;
`try_alternative_shell → execute_command` and
`intelligent_retry → execute_command` are unconditional. -/
def step (c : Config) (e : Event) : Option Config :=
  match c.stage, e with
  | .generate, .genOk command explanationText warns =>
      some ⟨.awaitConfirmation, generateNodeOk c.state command explanationText warns⟩
  | .generate, .genFail msg =>
      some ⟨.awaitConfirmation, generateNodeFail c.state msg⟩
  | .awaitConfirmation, .tick =>
      match c.state.user_confirmed with
      | some _ => some ⟨routeAfterConfirmation c.state, c.state⟩
      | none =>
        match c.state.safety_assessment with
        | none => some ⟨.fault, c.state⟩
        | some a =>
          if a.allow then none
          else
            let s2 := blockedUpdate c.state a
            some ⟨routeAfterConfirmation s2, s2⟩
  | .awaitConfirmation, .human conf fb =>
      match c.state.user_confirmed, c.state.safety_assessment with
      | none, some a =>
        if a.allow then
          let s2 := mergeDecision c.state conf fb
          some ⟨routeAfterConfirmation s2, s2⟩
        else none
      | _, _ => none
  | .execute, .execDone o =>
      let s2 := executeNodeDone c.state o
      some ⟨routeAfterExecution s2, s2⟩
  | .execute, .execRaise msg =>
      let s2 := executeNodeRaise c.state msg
      some ⟨routeAfterExecution s2, s2⟩
  | .validate, .valOk passed reasoning =>
      let s2 := validateNodeOk c.state passed reasoning
      some ⟨routeAfterValidation s2, s2⟩
  | .validate, .valFail msg =>
      let s2 := validateNodeFail c.state msg
      some ⟨routeAfterValidation s2, s2⟩
  | .analyzeContent, .analysisOk res => some ⟨.present, analyzeNodeOk c.state res⟩
  | .analyzeContent, .analysisNoContent => some ⟨.present, analyzeNodeNoContent c.state⟩
  | .analyzeContent, .analysisFail msg => some ⟨.present, analyzeNodeFail c.state msg⟩
  | .present, .tick => some ⟨.terminal, presentNode c.state⟩
  | .retry, .tick =>
      let s2 := retryNode c.state
      some ⟨routeAfterRetry s2, s2⟩
  | .tryAlternativeShell, .tick =>
      match nextUntriedShell c.state.attempted_shells with
      | none => some ⟨.execute, tryAltExhausted c.state⟩
      | some _ => none
  | .tryAlternativeShell, .altGenOk command explanationText =>
      match nextUntriedShell c.state.attempted_shells with
      | some nsh => some ⟨.execute, tryAltOk c.state nsh command explanationText⟩
      | none => none
  | .tryAlternativeShell, .altGenFail msg =>
      match nextUntriedShell c.state.attempted_shells with
      | some nsh => some ⟨.execute, tryAltFail c.state nsh msg⟩
      | none => none
  | .intelligentRetry, .intelRewrite command =>
      some ⟨.execute, intelligentRetryNode c.state command⟩
  | _, _ => none

/-- Run the engine over an event list. -/
def run (c : Config) : List Event → Option Config
  | [] => some c
  | e :: es =>
    match step c e with
    | some c2 => run c2 es
    | none => none

/-- The entry configuration: initial state at the `generate` stage. -/
def initConfig (ui : String) (maxRetries : Nat) : Config :=
  ⟨.generate, initState ui maxRetries⟩

/-- A configuration reachable from some session start. -/
def Reachable (c : Config) : Prop :=
  ∃ ui maxRetries evs, run (initConfig ui maxRetries) evs = some c

/-- Total variant of `run` for writing concrete configurations. -/
def runD (c : Config) (evs : List Event) : Config :=
  (run c evs).getD c

/-- How many times along a run the engine stands at the `execute` stage with
the given shell selected (counting the configuration before each event and
the final one). -/
def execVisits (sh : String) : Config → List Event → Nat
  | c, [] => if c.stage == Node.execute && c.state.shell_type == sh then 1 else 0
  | c, e :: es =>
    (if c.stage == Node.execute && c.state.shell_type == sh then 1 else 0) +
      (match step c e with
       | some c2 => execVisits sh c2 es
       | none => 0)

/-! ## Invariant predicates for the reachability claims -/

/-- No reachable state carries the `intelligent_retry` hint, and the engine
never stands at the intelligent-retry stage. -/
def NoIntelligentRetry (c : Config) : Prop :=
  c.state.next_step ≠ "intelligent_retry" ∧ c.stage ≠ .intelligentRetry

/-- A recorded rejection keeps the engine away from every execution stage:
this is the core of the safety block, since the block branch of
`await_confirmation_node` writes `user_confirmed = false`. -/
def SafetyBlockExcludesExecution (c : Config) : Prop :=
  c.state.user_confirmed = some false →
    c.stage ≠ .execute ∧ c.stage ≠ .tryAlternativeShell ∧ c.stage ≠ .intelligentRetry

/-- The shell set never contains a duplicate. -/
def AttemptedNodup (c : Config) : Prop :=
  c.state.attempted_shells.Nodup

/-- What each presentation-relevant stage is guaranteed to carry. -/
def TerminalCarries (c : Config) : Prop :=
  (c.stage = .validate → c.state.execution_result ≠ none) ∧
  (c.stage = .analyzeContent → c.state.execution_result ≠ none) ∧
  (c.stage = .present → c.state.execution_result ≠ none ∨ c.state.error_message ≠ none) ∧
  (c.stage = .terminal → c.state.execution_result ≠ none ∨ c.state.error_message ≠ none ∨
    (c.state.user_confirmed = some false ∧ truthy c.state.user_feedback = false))


/-! ## Generic invariant machinery -/

/-- A step-preserved predicate is preserved by whole runs. -/
theorem run_preserve (P : Config → Prop)
    (hstep : ∀ c e c2, step c e = some c2 → P c → P c2) :
    ∀ evs c c2, run c evs = some c2 → P c → P c2 := by
  intro evs
  induction evs with
  | nil => intro c c2 h hP; simp [run] at h; exact h ▸ hP
  | cons e es ih =>
    intro c c2 h hP
    simp only [run] at h
    cases hs : step c e with
    | none => rw [hs] at h; exact absurd h (by simp)
    | some c1 => rw [hs] at h; exact ih c1 c2 h (hstep c e c1 hs hP)

/-- A step-preserved predicate true at session start holds at every
reachable configuration. -/
theorem reachable_invariant (P : Config → Prop)
    (hinit : ∀ ui maxRetries, P (initConfig ui maxRetries))
    (hstep : ∀ c e c2, step c e = some c2 → P c → P c2) :
    ∀ c, Reachable c → P c := by
  rintro c ⟨ui, maxRetries, evs, h⟩
  exact run_preserve P hstep evs _ c h (hinit ui maxRetries)

/-- Membership in `attempted_shells` survives the merge of an update. -/
theorem mem_mergeShells_left {x : String} {old upd : List String}
    (h : x ∈ old) : x ∈ mergeShells old upd := by
  simp [mergeShells, h]

/-- Merging a single shell keeps `attempted_shells` duplicate-free. -/
theorem nodup_mergeShells_singleton {old : List String} (sh : String)
    (h : old.Nodup) : (mergeShells old [sh]).Nodup := by
  unfold mergeShells
  by_cases hm : sh ∈ old
  · have hf : (List.filter (fun s => !old.contains s) [sh]) = [] := by simp [hm]
    rw [hf]; simpa using h
  · have hf : (List.filter (fun s => !old.contains s) [sh]) = [sh] := by simp [hm]
    rw [hf]; simp [List.nodup_append, h, hm]

/-! ## Route characterizations -/

/-- `route_after_confirmation` only targets execution, retry or end. -/
theorem routeAfterConfirmation_cases (s : CommandState) :
    routeAfterConfirmation s = .execute ∨ routeAfterConfirmation s = .retry ∨
      routeAfterConfirmation s = .terminal := by
  unfold routeAfterConfirmation; split_ifs <;> simp

/-- A rejected confirmation never routes to execution. -/
theorem routeAfterConfirmation_of_rejected {s : CommandState}
    (h : s.user_confirmed.getD false = false) :
    routeAfterConfirmation s = .retry ∨ routeAfterConfirmation s = .terminal := by
  unfold routeAfterConfirmation; split_ifs with h1 h2 <;> simp_all

/-- Ending at confirmation means the command was not confirmed and no truthy
feedback was given. -/
theorem routeAfterConfirmation_eq_terminal {s : CommandState}
    (h : routeAfterConfirmation s = .terminal) :
    s.user_confirmed.getD false = false ∧ truthy s.user_feedback = false := by
  unfold routeAfterConfirmation at h; split_ifs at h with h1 h2 <;> simp_all

/-- `route_after_execution` only targets its four stages. -/
theorem routeAfterExecution_cases (s : CommandState) :
    routeAfterExecution s = .intelligentRetry ∨
      routeAfterExecution s = .tryAlternativeShell ∨
      routeAfterExecution s = .validate ∨ routeAfterExecution s = .present := by
  unfold routeAfterExecution; split_ifs <;> simp

/-- Without the `intelligent_retry` hint the execution router never targets
the intelligent-retry stage. -/
theorem routeAfterExecution_ne_intel {s : CommandState}
    (h : s.next_step ≠ "intelligent_retry") :
    routeAfterExecution s ≠ .intelligentRetry := by
  unfold routeAfterExecution; split_ifs with h1 h2 h3 <;> simp_all

/-- Routing to validation happens only with a success-or-failed status. -/
theorem routeAfterExecution_eq_validate {s : CommandState}
    (h : routeAfterExecution s = .validate) :
    s.execution_status = "success" ∨ s.execution_status = "failed" := by
  unfold routeAfterExecution at h; split_ifs at h with h1 h2 h3 <;> simp_all

/-- `route_after_retry` only regenerates or ends. -/
theorem routeAfterRetry_cases (s : CommandState) :
    routeAfterRetry s = .generate ∨ routeAfterRetry s = .terminal := by
  unfold routeAfterRetry; split_ifs <;> simp

/-- Ending at retry means the retry budget is exhausted. -/
theorem routeAfterRetry_eq_terminal {s : CommandState}
    (h : routeAfterRetry s = .terminal) : ¬ s.retry_count < s.max_retries := by
  unfold routeAfterRetry at h; split_ifs at h with h1 <;> simp_all

/-- `route_after_validation` only analyzes or presents. -/
theorem routeAfterValidation_cases (s : CommandState) :
    routeAfterValidation s = .analyzeContent ∨ routeAfterValidation s = .present := by
  unfold routeAfterValidation; split_ifs <;> simp

/-- The execute node's normal branch requests `try_alternative` or `validate`. -/
theorem executeNodeDone_next_step (s : CommandState) (o : SubprocOutcome) :
    (executeNodeDone s o).next_step = "try_alternative" ∨
      (executeNodeDone s o).next_step = "validate" := by
  simp only [executeNodeDone]
  split
  all_goals simp

/-- The execute node's exception branch requests `try_alternative` or `present`. -/
theorem executeNodeRaise_next_step (s : CommandState) (msg : String) :
    (executeNodeRaise s msg).next_step = "try_alternative" ∨
      (executeNodeRaise s msg).next_step = "present" := by
  simp only [executeNodeRaise]
  split
  all_goals simp

/-! ## The intelligent-retry stage is never requested -/

theorem step_preserves_NoIntelligentRetry :
    ∀ c e c2, step c e = some c2 → NoIntelligentRetry c → NoIntelligentRetry c2 := by
  intro c e c2 h hP
  obtain ⟨h1, h2⟩ := hP
  obtain ⟨stage, s⟩ := c
  cases stage <;> cases e <;>
    simp only [step, Option.some.injEq, reduceCtorEq] at h
  case generate.genOk => subst h; simp [NoIntelligentRetry, generateNodeOk]
  case generate.genFail => subst h; simp [NoIntelligentRetry, generateNodeFail]
  case awaitConfirmation.tick =>
    rcases hc : s.user_confirmed with _ | b
    · rcases ha : s.safety_assessment with _ | a
      · simp only [hc, ha, Option.some.injEq] at h
        subst h; exact ⟨h1, by simp⟩
      · simp only [hc, ha] at h
        split_ifs at h
        simp only [Option.some.injEq] at h; subst h
        refine ⟨by simp [blockedUpdate], ?_⟩
        rcases routeAfterConfirmation_cases (blockedUpdate s a) with hr | hr | hr <;>
          simp [hr]
    · simp only [hc, Option.some.injEq] at h; subst h
      refine ⟨h1, ?_⟩
      rcases routeAfterConfirmation_cases s with hr | hr | hr <;> simp [hr]
  case awaitConfirmation.human conf fb =>
    rcases hc : s.user_confirmed with _ | b
    · rcases ha : s.safety_assessment with _ | a
      · simp [hc, ha] at h
      · simp only [hc, ha] at h
        split_ifs at h
        simp only [Option.some.injEq] at h; subst h
        refine ⟨by simp [mergeDecision, h1], ?_⟩
        rcases routeAfterConfirmation_cases (mergeDecision s conf fb) with hr | hr | hr <;>
          simp [hr]
    · simp [hc] at h
  case execute.execDone o =>
    subst h
    have hn := executeNodeDone_next_step s o
    refine ⟨by rcases hn with hn | hn <;> simp [hn], ?_⟩
    exact routeAfterExecution_ne_intel (by rcases hn with hn | hn <;> simp [hn])
  case execute.execRaise msg =>
    subst h
    have hn := executeNodeRaise_next_step s msg
    refine ⟨by rcases hn with hn | hn <;> simp [hn], ?_⟩
    exact routeAfterExecution_ne_intel (by rcases hn with hn | hn <;> simp [hn])
  case validate.valOk passed reasoning =>
    subst h
    refine ⟨by simp [validateNodeOk], ?_⟩
    rcases routeAfterValidation_cases (validateNodeOk s passed reasoning) with hr | hr <;>
      simp [hr]
  case validate.valFail msg =>
    subst h
    refine ⟨by simp [validateNodeFail], ?_⟩
    rcases routeAfterValidation_cases (validateNodeFail s msg) with hr | hr <;> simp [hr]
  case analyzeContent.analysisOk => subst h; simp [NoIntelligentRetry, analyzeNodeOk]
  case analyzeContent.analysisNoContent =>
    subst h; simp [NoIntelligentRetry, analyzeNodeNoContent]
  case analyzeContent.analysisFail => subst h; simp [NoIntelligentRetry, analyzeNodeFail]
  case present.tick => subst h; simp [NoIntelligentRetry, presentNode]
  case retry.tick =>
    subst h
    refine ⟨?_, ?_⟩
    · simp only [retryNode]; split_ifs <;> simp
    · rcases routeAfterRetry_cases (retryNode s) with hr | hr <;> simp [hr]
  case tryAlternativeShell.tick =>
    rcases hn : nextUntriedShell s.attempted_shells with _ | nsh
    · simp only [hn, Option.some.injEq] at h; subst h
      simp [NoIntelligentRetry, tryAltExhausted]
    · simp [hn] at h
  case tryAlternativeShell.altGenOk command explanationText =>
    rcases hn : nextUntriedShell s.attempted_shells with _ | nsh
    · simp [hn] at h
    · simp only [hn, Option.some.injEq] at h; subst h
      simp [NoIntelligentRetry, tryAltOk]
  case tryAlternativeShell.altGenFail msg =>
    rcases hn : nextUntriedShell s.attempted_shells with _ | nsh
    · simp [hn] at h
    · simp only [hn, Option.some.injEq] at h; subst h
      simp [NoIntelligentRetry, tryAltFail]
  case intelligentRetry.intelRewrite => exact absurd rfl h2

/-! ## The safety block excludes execution -/

/-- Field-preservation facts for the execute node. -/
theorem executeNodeDone_user_confirmed (s : CommandState) (o : SubprocOutcome) :
    (executeNodeDone s o).user_confirmed = s.user_confirmed := by
  simp only [executeNodeDone]; split
  all_goals rfl

/-- Field-preservation fact for the execute node's exception branch. -/
theorem executeNodeRaise_user_confirmed (s : CommandState) (msg : String) :
    (executeNodeRaise s msg).user_confirmed = s.user_confirmed := by
  simp only [executeNodeRaise]; split
  all_goals rfl

theorem step_preserves_SafetyBlockExcludesExecution :
    ∀ c e c2, step c e = some c2 →
      SafetyBlockExcludesExecution c → SafetyBlockExcludesExecution c2 := by
  intro c e c2 h hP
  obtain ⟨stage, s⟩ := c
  cases stage <;> cases e <;>
    simp only [step, Option.some.injEq, reduceCtorEq] at h
  case generate.genOk => subst h; intro hcf; simp
  case generate.genFail => subst h; intro hcf; simp
  case awaitConfirmation.tick =>
    rcases hc : s.user_confirmed with _ | b
    · rcases ha : s.safety_assessment with _ | a
      · simp only [hc, ha, Option.some.injEq] at h
        subst h; intro hcf; simp
      · simp only [hc, ha] at h
        split_ifs at h
        simp only [Option.some.injEq] at h; subst h
        intro hcf
        have hrej : (blockedUpdate s a).user_confirmed.getD false = false := by
          simp [blockedUpdate]
        rcases routeAfterConfirmation_of_rejected hrej with hr | hr <;> simp [hr]
    · simp only [hc, Option.some.injEq] at h; subst h
      intro hcf
      have hrej : s.user_confirmed.getD false = false := by
        rw [show s.user_confirmed = some false from hcf]; rfl
      rcases routeAfterConfirmation_of_rejected hrej with hr | hr <;> simp [hr]
  case awaitConfirmation.human conf fb =>
    rcases hc : s.user_confirmed with _ | b
    · rcases ha : s.safety_assessment with _ | a
      · simp [hc, ha] at h
      · simp only [hc, ha] at h
        split_ifs at h
        simp only [Option.some.injEq] at h; subst h
        intro hcf
        have h2 : (some conf : Option Bool) = some false := hcf
        have hconf : conf = false := by simpa using h2
        have hrej : (mergeDecision s conf fb).user_confirmed.getD false = false := by
          simp [mergeDecision, hconf]
        rcases routeAfterConfirmation_of_rejected hrej with hr | hr <;> simp [hr]
    · simp [hc] at h
  case execute.execDone o =>
    subst h
    intro hcf
    rw [executeNodeDone_user_confirmed] at hcf
    exact absurd rfl (hP hcf).1
  case execute.execRaise msg =>
    subst h
    intro hcf
    rw [executeNodeRaise_user_confirmed] at hcf
    exact absurd rfl (hP hcf).1
  case validate.valOk passed reasoning =>
    subst h
    intro hcf
    rcases routeAfterValidation_cases (validateNodeOk s passed reasoning) with hr | hr <;>
      simp [hr]
  case validate.valFail msg =>
    subst h
    intro hcf
    rcases routeAfterValidation_cases (validateNodeFail s msg) with hr | hr <;> simp [hr]
  case analyzeContent.analysisOk => subst h; intro hcf; simp
  case analyzeContent.analysisNoContent => subst h; intro hcf; simp
  case analyzeContent.analysisFail => subst h; intro hcf; simp
  case present.tick => subst h; intro hcf; simp
  case retry.tick =>
    subst h
    intro hcf
    rcases routeAfterRetry_cases (retryNode s) with hr | hr <;> simp [hr]
  case tryAlternativeShell.tick =>
    rcases hn : nextUntriedShell s.attempted_shells with _ | nsh
    · simp only [hn, Option.some.injEq] at h; subst h
      intro hcf
      exact absurd rfl (hP hcf).2.1
    · simp [hn] at h
  case tryAlternativeShell.altGenOk command explanationText =>
    rcases hn : nextUntriedShell s.attempted_shells with _ | nsh
    · simp [hn] at h
    · simp only [hn, Option.some.injEq] at h; subst h
      intro hcf
      exact absurd hcf (by simp [tryAltOk])
  case tryAlternativeShell.altGenFail msg =>
    rcases hn : nextUntriedShell s.attempted_shells with _ | nsh
    · simp [hn] at h
    · simp only [hn, Option.some.injEq] at h; subst h
      intro hcf
      exact absurd rfl (hP hcf).2.1
  case intelligentRetry.intelRewrite =>
    subst h
    intro hcf
    exact absurd rfl (hP hcf).2.2

/-- Once a rejection is recorded, no step can flip it back: the only writers
of `user_confirmed` are the confirmation stage (which requires it unset) and
`try_alternative_shell_node` (excluded by `SafetyBlockExcludesExecution`). -/
theorem step_confirmed_false_absorbing :
    ∀ c e c2, step c e = some c2 → SafetyBlockExcludesExecution c →
      c.state.user_confirmed = some false → c2.state.user_confirmed = some false := by
  intro c e c2 h hP hcf
  obtain ⟨stage, s⟩ := c
  simp only at hcf
  cases stage <;> cases e <;>
    simp only [step, Option.some.injEq, reduceCtorEq] at h
  case generate.genOk => subst h; simpa [generateNodeOk] using hcf
  case generate.genFail => subst h; simpa [generateNodeFail] using hcf
  case awaitConfirmation.tick =>
    simp only [hcf, Option.some.injEq] at h; subst h
    simpa using hcf
  case awaitConfirmation.human conf fb => simp [hcf] at h
  case execute.execDone o =>
    subst h; rw [executeNodeDone_user_confirmed]; exact hcf
  case execute.execRaise msg =>
    subst h; rw [executeNodeRaise_user_confirmed]; exact hcf
  case validate.valOk passed reasoning => subst h; simpa [validateNodeOk] using hcf
  case validate.valFail msg => subst h; simpa [validateNodeFail] using hcf
  case analyzeContent.analysisOk => subst h; simpa [analyzeNodeOk] using hcf
  case analyzeContent.analysisNoContent => subst h; simpa [analyzeNodeNoContent] using hcf
  case analyzeContent.analysisFail => subst h; simpa [analyzeNodeFail] using hcf
  case present.tick => subst h; simpa [presentNode] using hcf
  case retry.tick =>
    subst h
    simp only [retryNode]
    split_ifs
    all_goals simpa using hcf
  case tryAlternativeShell.tick => exact absurd rfl (hP hcf).2.1
  case tryAlternativeShell.altGenOk command explanationText =>
    exact absurd rfl (hP hcf).2.1
  case tryAlternativeShell.altGenFail msg => exact absurd rfl (hP hcf).2.1
  case intelligentRetry.intelRewrite => exact absurd rfl (hP hcf).2.2

/-! ## `attempted_shells`: no duplicates, monotone growth -/

theorem step_preserves_AttemptedNodup :
    ∀ c e c2, step c e = some c2 → AttemptedNodup c → AttemptedNodup c2 := by
  intro c e c2 h hP
  obtain ⟨stage, s⟩ := c
  cases stage <;> cases e <;>
    simp only [step, Option.some.injEq, reduceCtorEq] at h
  case generate.genOk => subst h; exact hP
  case generate.genFail => subst h; exact hP
  case awaitConfirmation.tick =>
    rcases hc : s.user_confirmed with _ | b
    · rcases ha : s.safety_assessment with _ | a
      · simp only [hc, ha, Option.some.injEq] at h; subst h; exact hP
      · simp only [hc, ha] at h
        split_ifs at h
        simp only [Option.some.injEq] at h; subst h; exact hP
    · simp only [hc, Option.some.injEq] at h; subst h; exact hP
  case awaitConfirmation.human conf fb =>
    rcases hc : s.user_confirmed with _ | b
    · rcases ha : s.safety_assessment with _ | a
      · simp [hc, ha] at h
      · simp only [hc, ha] at h
        split_ifs at h
        simp only [Option.some.injEq] at h; subst h; exact hP
    · simp [hc] at h
  case execute.execDone o =>
    subst h
    show (executeNodeDone s o).attempted_shells.Nodup
    simp only [executeNodeDone]
    split
    all_goals exact nodup_mergeShells_singleton s.shell_type hP
  case execute.execRaise msg =>
    subst h
    show (executeNodeRaise s msg).attempted_shells.Nodup
    simp only [executeNodeRaise]
    split
    · exact nodup_mergeShells_singleton s.shell_type hP
    · exact hP
  case validate.valOk passed reasoning => subst h; exact hP
  case validate.valFail msg => subst h; exact hP
  case analyzeContent.analysisOk => subst h; exact hP
  case analyzeContent.analysisNoContent => subst h; exact hP
  case analyzeContent.analysisFail => subst h; exact hP
  case present.tick => subst h; exact hP
  case retry.tick =>
    subst h
    show (retryNode s).attempted_shells.Nodup
    simp only [retryNode]
    split_ifs
    all_goals exact hP
  case tryAlternativeShell.tick =>
    rcases hn : nextUntriedShell s.attempted_shells with _ | nsh
    · simp only [hn, Option.some.injEq] at h; subst h; exact hP
    · simp [hn] at h
  case tryAlternativeShell.altGenOk command explanationText =>
    rcases hn : nextUntriedShell s.attempted_shells with _ | nsh
    · simp [hn] at h
    · simp only [hn, Option.some.injEq] at h; subst h; exact hP
  case tryAlternativeShell.altGenFail msg =>
    rcases hn : nextUntriedShell s.attempted_shells with _ | nsh
    · simp [hn] at h
    · simp only [hn, Option.some.injEq] at h; subst h; exact hP
  case intelligentRetry.intelRewrite => subst h; exact hP

/-- No step removes a shell from `attempted_shells`. -/
theorem step_attempted_monotone :
    ∀ c e c2, step c e = some c2 →
      ∀ x ∈ c.state.attempted_shells, x ∈ c2.state.attempted_shells := by
  intro c e c2 h x hx
  obtain ⟨stage, s⟩ := c
  simp only at hx
  cases stage <;> cases e <;>
    simp only [step, Option.some.injEq, reduceCtorEq] at h
  case generate.genOk => subst h; exact hx
  case generate.genFail => subst h; exact hx
  case awaitConfirmation.tick =>
    rcases hc : s.user_confirmed with _ | b
    · rcases ha : s.safety_assessment with _ | a
      · simp only [hc, ha, Option.some.injEq] at h; subst h; exact hx
      · simp only [hc, ha] at h
        split_ifs at h
        simp only [Option.some.injEq] at h; subst h; exact hx
    · simp only [hc, Option.some.injEq] at h; subst h; exact hx
  case awaitConfirmation.human conf fb =>
    rcases hc : s.user_confirmed with _ | b
    · rcases ha : s.safety_assessment with _ | a
      · simp [hc, ha] at h
      · simp only [hc, ha] at h
        split_ifs at h
        simp only [Option.some.injEq] at h; subst h; exact hx
    · simp [hc] at h
  case execute.execDone o =>
    subst h
    show x ∈ (executeNodeDone s o).attempted_shells
    simp only [executeNodeDone]
    split
    all_goals exact mem_mergeShells_left hx
  case execute.execRaise msg =>
    subst h
    show x ∈ (executeNodeRaise s msg).attempted_shells
    simp only [executeNodeRaise]
    split
    · exact mem_mergeShells_left hx
    · exact hx
  case validate.valOk passed reasoning => subst h; exact hx
  case validate.valFail msg => subst h; exact hx
  case analyzeContent.analysisOk => subst h; exact hx
  case analyzeContent.analysisNoContent => subst h; exact hx
  case analyzeContent.analysisFail => subst h; exact hx
  case present.tick => subst h; exact hx
  case retry.tick =>
    subst h
    show x ∈ (retryNode s).attempted_shells
    simp only [retryNode]
    split_ifs
    all_goals exact hx
  case tryAlternativeShell.tick =>
    rcases hn : nextUntriedShell s.attempted_shells with _ | nsh
    · simp only [hn, Option.some.injEq] at h; subst h; exact hx
    · simp [hn] at h
  case tryAlternativeShell.altGenOk command explanationText =>
    rcases hn : nextUntriedShell s.attempted_shells with _ | nsh
    · simp [hn] at h
    · simp only [hn, Option.some.injEq] at h; subst h; exact hx
  case tryAlternativeShell.altGenFail msg =>
    rcases hn : nextUntriedShell s.attempted_shells with _ | nsh
    · simp [hn] at h
    · simp only [hn, Option.some.injEq] at h; subst h; exact hx
  case intelligentRetry.intelRewrite => subst h; exact hx

/-! ## Every clean END carries a result, an error, or a silent rejection -/

/-- Either the retry node recorded the retries-exhausted error, or the retry
router still sends the session back to generation. -/
theorem retryNode_error_or_generate (s : CommandState) :
    (retryNode s).error_message = some "Maximum retries exceeded" ∨
      routeAfterRetry (retryNode s) = .generate := by
  simp only [retryNode]
  split_ifs with h1
  · left; rfl
  · right
    have hlt : s.retry_count + 1 < s.max_retries := by omega
    simp [routeAfterRetry, hlt]

/-- `TerminalCarries` holds trivially away from the four constrained stages. -/
theorem terminalCarries_other {st : Node} {s2 : CommandState}
    (h1 : st ≠ .validate) (h2 : st ≠ .analyzeContent) (h3 : st ≠ .present)
    (h4 : st ≠ .terminal) : TerminalCarries ⟨st, s2⟩ :=
  ⟨fun h => absurd h h1, fun h => absurd h h2, fun h => absurd h h3, fun h => absurd h h4⟩

theorem step_preserves_TerminalCarries :
    ∀ c e c2, step c e = some c2 → TerminalCarries c → TerminalCarries c2 := by
  intro c e c2 h hP
  obtain ⟨stage, s⟩ := c
  cases stage <;> cases e <;>
    simp only [step, Option.some.injEq, reduceCtorEq] at h
  case generate.genOk =>
    subst h; exact terminalCarries_other (by simp) (by simp) (by simp) (by simp)
  case generate.genFail =>
    subst h; exact terminalCarries_other (by simp) (by simp) (by simp) (by simp)
  case awaitConfirmation.tick =>
    rcases hc : s.user_confirmed with _ | b
    · rcases ha : s.safety_assessment with _ | a
      · simp only [hc, ha, Option.some.injEq] at h; subst h
        exact terminalCarries_other (by simp) (by simp) (by simp) (by simp)
      · simp only [hc, ha] at h
        split_ifs at h
        simp only [Option.some.injEq] at h; subst h
        have hroute : routeAfterConfirmation (blockedUpdate s a) = .retry := by
          simp [routeAfterConfirmation, blockedUpdate, truthy]
        rw [hroute]
        exact terminalCarries_other (by simp) (by simp) (by simp) (by simp)
    · simp only [hc, Option.some.injEq] at h; subst h
      rcases routeAfterConfirmation_cases s with hr | hr | hr
      · rw [hr]; exact terminalCarries_other (by simp) (by simp) (by simp) (by simp)
      · rw [hr]; exact terminalCarries_other (by simp) (by simp) (by simp) (by simp)
      · rw [hr]
        obtain ⟨hgd, htr⟩ := routeAfterConfirmation_eq_terminal hr
        have hb : b = false := by rw [hc] at hgd; simpa using hgd
        refine ⟨by simp, by simp, by simp, fun _ => Or.inr (Or.inr ⟨?_, htr⟩)⟩
        rw [hc, hb]
  case awaitConfirmation.human conf fb =>
    rcases hc : s.user_confirmed with _ | b
    · rcases ha : s.safety_assessment with _ | a
      · simp [hc, ha] at h
      · simp only [hc, ha] at h
        split_ifs at h
        simp only [Option.some.injEq] at h; subst h
        rcases routeAfterConfirmation_cases (mergeDecision s conf fb) with hr | hr | hr
        · rw [hr]; exact terminalCarries_other (by simp) (by simp) (by simp) (by simp)
        · rw [hr]; exact terminalCarries_other (by simp) (by simp) (by simp) (by simp)
        · rw [hr]
          obtain ⟨hgd, htr⟩ := routeAfterConfirmation_eq_terminal hr
          have hconf : conf = false := by simpa [mergeDecision] using hgd
          refine ⟨by simp, by simp, by simp, fun _ => Or.inr (Or.inr ⟨?_, htr⟩)⟩
          simp [mergeDecision, hconf]
    · simp [hc] at h
  case execute.execDone o =>
    subst h
    have hres : (executeNodeDone s o).execution_result ≠ none := by
      simp only [executeNodeDone]; split
      all_goals simp
    exact ⟨fun _ => hres, fun _ => hres, fun _ => Or.inl hres, fun _ => Or.inl hres⟩
  case execute.execRaise msg =>
    subst h
    have herr : (executeNodeRaise s msg).error_message ≠ none := by
      simp only [executeNodeRaise]; split
      all_goals simp
    have hst : (executeNodeRaise s msg).execution_status = "error" := by
      simp only [executeNodeRaise]; split
      all_goals rfl
    have hcases := routeAfterExecution_cases (executeNodeRaise s msg)
    refine ⟨?_, ?_, fun _ => Or.inr herr, ?_⟩
    · intro hv
      rcases routeAfterExecution_eq_validate hv with h2 | h2 <;> rw [hst] at h2 <;> simp at h2
    · intro hv
      have hv2 : routeAfterExecution (executeNodeRaise s msg) = Node.analyzeContent := hv
      rcases hcases with hr | hr | hr | hr <;> rw [hv2] at hr <;> simp at hr
    · intro hv
      have hv2 : routeAfterExecution (executeNodeRaise s msg) = Node.terminal := hv
      rcases hcases with hr | hr | hr | hr <;> rw [hv2] at hr <;> simp at hr
  case validate.valOk passed reasoning =>
    subst h
    have hres : s.execution_result ≠ none := hP.1 rfl
    rcases routeAfterValidation_cases (validateNodeOk s passed reasoning) with hr | hr
    · rw [hr]; exact ⟨by simp, fun _ => hres, by simp, by simp⟩
    · rw [hr]; exact ⟨by simp, by simp, fun _ => Or.inl hres, by simp⟩
  case validate.valFail msg =>
    subst h
    have hres : s.execution_result ≠ none := hP.1 rfl
    rcases routeAfterValidation_cases (validateNodeFail s msg) with hr | hr
    · rw [hr]; exact ⟨by simp, fun _ => hres, by simp, by simp⟩
    · rw [hr]; exact ⟨by simp, by simp, fun _ => Or.inl hres, by simp⟩
  case analyzeContent.analysisOk res =>
    subst h
    have hres : s.execution_result ≠ none := hP.2.1 rfl
    exact ⟨by simp, by simp, fun _ => Or.inl hres, by simp⟩
  case analyzeContent.analysisNoContent =>
    subst h
    have hres : s.execution_result ≠ none := hP.2.1 rfl
    exact ⟨by simp, by simp, fun _ => Or.inl hres, by simp⟩
  case analyzeContent.analysisFail msg =>
    subst h
    have hres : s.execution_result ≠ none := hP.2.1 rfl
    exact ⟨by simp, by simp, fun _ => Or.inl hres, by simp⟩
  case present.tick =>
    subst h
    have hpre := hP.2.2.1 rfl
    refine ⟨by simp, by simp, by simp, fun _ => ?_⟩
    rcases hpre with hres | herr
    · exact Or.inl hres
    · exact Or.inr (Or.inl herr)
  case retry.tick =>
    subst h
    rcases routeAfterRetry_cases (retryNode s) with hr | hr
    · rw [hr]; exact terminalCarries_other (by simp) (by simp) (by simp) (by simp)
    · rw [hr]
      rcases retryNode_error_or_generate s with he | hg
      · exact ⟨by simp, by simp, by simp,
          fun _ => Or.inr (Or.inl (by rw [he]; simp))⟩
      · rw [hr] at hg; simp at hg
  case tryAlternativeShell.tick =>
    rcases hn : nextUntriedShell s.attempted_shells with _ | nsh
    · simp only [hn, Option.some.injEq] at h; subst h
      exact terminalCarries_other (by simp) (by simp) (by simp) (by simp)
    · simp [hn] at h
  case tryAlternativeShell.altGenOk command explanationText =>
    rcases hn : nextUntriedShell s.attempted_shells with _ | nsh
    · simp [hn] at h
    · simp only [hn, Option.some.injEq] at h; subst h
      exact terminalCarries_other (by simp) (by simp) (by simp) (by simp)
  case tryAlternativeShell.altGenFail msg =>
    rcases hn : nextUntriedShell s.attempted_shells with _ | nsh
    · simp [hn] at h
    · simp only [hn, Option.some.injEq] at h; subst h
      exact terminalCarries_other (by simp) (by simp) (by simp) (by simp)
  case intelligentRetry.intelRewrite =>
    subst h
    exact terminalCarries_other (by simp) (by simp) (by simp) (by simp)

/-! ## Claims -/

/-- C1 (counterexample): on a generated command matching a dangerous pattern
the confirmation stage does force `user_confirmed = false` without consulting
any human input, but it routes to the retry stage, not to the terminal stage:
the block branch auto-fills `user_feedback` with a non-empty string and
`route_after_confirmation` checks feedback before ending. -/
theorem C1_counterexample :
    (runD (initConfig "delete stuff" 3)
        [.genOk "Invoke-Expression x" "runs x" []]).state.safety_assessment.map
          SafetyAssessment.allow = some false ∧
    (runD (initConfig "delete stuff" 3)
        [.genOk "Invoke-Expression x" "runs x" [], .tick]).state.user_confirmed
        = some false ∧
    (runD (initConfig "delete stuff" 3)
        [.genOk "Invoke-Expression x" "runs x" [], .tick]).stage = Node.retry ∧
    (runD (initConfig "delete stuff" 3)
        [.genOk "Invoke-Expression x" "runs x" [], .tick]).stage ≠ Node.terminal := by
  refine ⟨by decide, by decide, by decide, by decide⟩

/-- C1 (amended): when the safety verdict blocks a command the confirmation
stage forces `user_confirmed = false` without consulting any human input, and
with a rejection recorded the engine can never stand at the execution stages
(so the Process Executor is never invoked for the session) and no later step
can flip the rejection; the blocked session however routes to Retry, reaching
a terminal state only through the retry loop, not directly. -/
theorem C1_safety_block_excludes_execution :
    ∀ c, Reachable c →
      (c.state.user_confirmed = some false →
        c.stage ≠ Node.execute ∧ c.stage ≠ Node.tryAlternativeShell ∧
          c.stage ≠ Node.intelligentRetry) ∧
      (∀ e c2, step c e = some c2 → c.state.user_confirmed = some false →
        c2.state.user_confirmed = some false) := by
  intro c hc
  have hinv := reachable_invariant SafetyBlockExcludesExecution
    (fun ui m => by intro hcf; simp [initConfig, initState] at hcf)
    step_preserves_SafetyBlockExcludesExecution c hc
  exact ⟨hinv, fun e c2 hs hcf => step_confirmed_false_absorbing c e c2 hs hinv hcf⟩

/-- C1 (witness): the amended theorem applied to the concrete blocked run. -/
theorem C1_witness :
    (runD (initConfig "delete stuff" 3)
      [.genOk "Invoke-Expression x" "runs x" [], .tick]).stage ≠ Node.execute ∧
    (runD (initConfig "delete stuff" 3)
      [.genOk "Invoke-Expression x" "runs x" [], .tick, .tick]).state.user_confirmed
      = some false := by
  constructor
  · exact ((C1_safety_block_excludes_execution _
      ⟨"delete stuff", 3, [.genOk "Invoke-Expression x" "runs x" [], .tick],
        by decide⟩).1 (by decide)).1
  · exact (C1_safety_block_excludes_execution
      (runD (initConfig "delete stuff" 3)
        [.genOk "Invoke-Expression x" "runs x" [], .tick])
      ⟨"delete stuff", 3, [.genOk "Invoke-Expression x" "runs x" [], .tick],
        by decide⟩).2 .tick
      (runD (initConfig "delete stuff" 3)
        [.genOk "Invoke-Expression x" "runs x" [], .tick, .tick])
      (by decide) (by decide)

/-- C2: for every command string: if any dangerous pattern matches
(case-insensitively), `assess` returns level `dangerous` with `allow = false`
and `matched_patterns` holds only dangerous matches; if no dangerous pattern
matches but some suspicious one does, level is `suspicious` with
`allow = true`; if nothing matches, level is `safe` with `allow = true`. -/
theorem C2_assess_classification (cmd : String) :
    (DANGEROUS_PATTERNS.any (fun p => reSearch p cmd) = true →
      (CommandFilter.assess cmd).level = "dangerous" ∧
      (CommandFilter.assess cmd).allow = false ∧
      ∀ q ∈ (CommandFilter.assess cmd).matched_patterns,
        q ∈ DANGEROUS_PATTERNS ∧ reSearch q cmd = true) ∧
    (DANGEROUS_PATTERNS.any (fun p => reSearch p cmd) = false →
      SUSPICIOUS_PATTERNS.any (fun p => reSearch p cmd) = true →
      (CommandFilter.assess cmd).level = "suspicious" ∧
        (CommandFilter.assess cmd).allow = true) ∧
    (DANGEROUS_PATTERNS.any (fun p => reSearch p cmd) = false →
      SUSPICIOUS_PATTERNS.any (fun p => reSearch p cmd) = false →
      (CommandFilter.assess cmd).level = "safe" ∧
        (CommandFilter.assess cmd).allow = true) := by
  refine ⟨?_, ?_, ?_⟩
  · intro hd
    have hne : DANGEROUS_PATTERNS.filter (fun p => reSearch p cmd) ≠ [] := by
      rw [List.any_eq_true] at hd
      obtain ⟨p, hp, hps⟩ := hd
      intro hnil
      exact absurd hps (by simpa using List.filter_eq_nil_iff.mp hnil p hp)
    have hie : (DANGEROUS_PATTERNS.filter (fun p => reSearch p cmd)).isEmpty = false := by
      rcases he : (DANGEROUS_PATTERNS.filter (fun p => reSearch p cmd)).isEmpty
      · rfl
      · exact absurd (List.isEmpty_iff.mp he) hne
    refine ⟨?_, ?_, ?_⟩
    · simp [CommandFilter.assess, hie]
    · simp [CommandFilter.assess, hie]
    · intro q hq
      simp only [CommandFilter.assess, hie] at hq
      simpa using hq
  · intro hd hs
    have hdn : (DANGEROUS_PATTERNS.filter (fun p => reSearch p cmd)) = [] := by
      rw [List.filter_eq_nil_iff]
      intro a ha hpa
      have hany : DANGEROUS_PATTERNS.any (fun p => reSearch p cmd) = true :=
        List.any_eq_true.mpr ⟨a, ha, hpa⟩
      rw [hd] at hany
      exact Bool.false_ne_true hany
    have hne : SUSPICIOUS_PATTERNS.filter (fun p => reSearch p cmd) ≠ [] := by
      rw [List.any_eq_true] at hs
      obtain ⟨p, hp, hps⟩ := hs
      intro hnil
      exact absurd hps (by simpa using List.filter_eq_nil_iff.mp hnil p hp)
    have hie : (SUSPICIOUS_PATTERNS.filter (fun p => reSearch p cmd)).isEmpty = false := by
      rcases he : (SUSPICIOUS_PATTERNS.filter (fun p => reSearch p cmd)).isEmpty
      · rfl
      · exact absurd (List.isEmpty_iff.mp he) hne
    constructor
    · simp [CommandFilter.assess, hdn, hie]
    · simp [CommandFilter.assess, hdn, hie]
  · intro hd hs
    have hdn : (DANGEROUS_PATTERNS.filter (fun p => reSearch p cmd)) = [] := by
      rw [List.filter_eq_nil_iff]
      intro a ha hpa
      have hany : DANGEROUS_PATTERNS.any (fun p => reSearch p cmd) = true :=
        List.any_eq_true.mpr ⟨a, ha, hpa⟩
      rw [hd] at hany
      exact Bool.false_ne_true hany
    have hsn : (SUSPICIOUS_PATTERNS.filter (fun p => reSearch p cmd)) = [] := by
      rw [List.filter_eq_nil_iff]
      intro a ha hpa
      have hany : SUSPICIOUS_PATTERNS.any (fun p => reSearch p cmd) = true :=
        List.any_eq_true.mpr ⟨a, ha, hpa⟩
      rw [hs] at hany
      exact Bool.false_ne_true hany
    constructor
    · simp [CommandFilter.assess, hdn, hsn]
    · simp [CommandFilter.assess, hdn, hsn]

/-- C2 (witness): the classification theorem applied to a dangerous, a
suspicious and a safe concrete command. -/
theorem C2_witness :
    (CommandFilter.assess "Remove-Item -Recurse -Force C:\\Windows").level
      = "dangerous" ∧
    (CommandFilter.assess "Remove-Item -Recurse -Force C:\\Windows").allow = false ∧
    (CommandFilter.assess "Stop-Process -Name foo").level = "suspicious" ∧
    (CommandFilter.assess "Stop-Process -Name foo").allow = true ∧
    (CommandFilter.assess "Get-Date").level = "safe" ∧
    (CommandFilter.assess "Get-Date").allow = true := by
  refine ⟨?_, ?_, ?_, ?_, ?_, ?_⟩
  · exact ((C2_assess_classification "Remove-Item -Recurse -Force C:\\Windows").1
      (by decide)).1
  · exact ((C2_assess_classification "Remove-Item -Recurse -Force C:\\Windows").1
      (by decide)).2.1
  · exact ((C2_assess_classification "Stop-Process -Name foo").2.1
      (by decide) (by decide)).1
  · exact ((C2_assess_classification "Stop-Process -Name foo").2.1
      (by decide) (by decide)).2
  · exact ((C2_assess_classification "Get-Date").2.2 (by decide) (by decide)).1
  · exact ((C2_assess_classification "Get-Date").2.2 (by decide) (by decide)).2

/-- C3: contrary to the spec, a generation failure does not transition from
Generate directly to a terminal state: `create_workflow` wires the
unconditional edge `generate_command → await_confirmation`, ignoring the
node's `end` hint, and the confirmation node then dereferences the absent
`safety_assessment` and faults.  The successful branch does go on to the
confirmation stage. -/
theorem C3_generation_failure_reaches_confirmation :
    (runD (initConfig "list files" 3) [.genFail "OpenAI API error"]).stage
      = Node.awaitConfirmation ∧
    (runD (initConfig "list files" 3) [.genFail "OpenAI API error"]).stage
      ≠ Node.terminal ∧
    (runD (initConfig "list files" 3) [.genFail "OpenAI API error"]).state.next_step
      = "end" ∧
    (runD (initConfig "list files" 3) [.genFail "OpenAI API error"]).state.error_type
      = some "generation_error" ∧
    (runD (initConfig "list files" 3) [.genFail "OpenAI API error", .tick]).stage
      = Node.fault ∧
    (runD (initConfig "list files" 3) [.genOk "Get-ChildItem" "lists" []]).stage
      = Node.awaitConfirmation := by
  refine ⟨by decide, by decide, by decide, by decide, by decide, by decide⟩

/-- C4 (counterexample): with `max_retries = 1` and `retry_count = 0`, the
first rejection with feedback already routes to the terminal stage with the
retries-exhausted error (`retry_count` goes 0 → 1 and `1 ≥ max_retries`),
refuting the claim that the first rejection is routed to Generate. -/
theorem C4_counterexample :
    (runD (initConfig "list files" 1)
      [.genOk "Get-ChildItem" "lists" [], .human false (some "wrong path")]).stage
      = Node.retry ∧
    (runD (initConfig "list files" 1)
      [.genOk "Get-ChildItem" "lists" [], .human false (some "wrong path"),
       .tick]).state.retry_count = 1 ∧
    (runD (initConfig "list files" 1)
      [.genOk "Get-ChildItem" "lists" [], .human false (some "wrong path"),
       .tick]).stage = Node.terminal ∧
    (runD (initConfig "list files" 1)
      [.genOk "Get-ChildItem" "lists" [], .human false (some "wrong path"),
       .tick]).stage ≠ Node.generate ∧
    (runD (initConfig "list files" 1)
      [.genOk "Get-ChildItem" "lists" [], .human false (some "wrong path"),
       .tick]).state.error_message = some "Maximum retries exceeded" := by
  refine ⟨by decide, by decide, by decide, by decide, by decide⟩

/-- C4 (amended): every retry-node visit increments `retry_count` by exactly
one; the visit routes to Generate exactly when the incremented count is still
below `max_retries`, and otherwise routes to the terminal stage recording the
retries-exhausted error — so with `max_retries = 1` the first rejection is
already terminal. -/
theorem C4_retry_increment_and_routing (s : CommandState) :
    (retryNode s).retry_count = s.retry_count + 1 ∧
    (s.retry_count + 1 < s.max_retries →
      step ⟨Node.retry, s⟩ .tick = some ⟨Node.generate, retryNode s⟩) ∧
    (s.max_retries ≤ s.retry_count + 1 →
      step ⟨Node.retry, s⟩ .tick = some ⟨Node.terminal, retryNode s⟩ ∧
      (retryNode s).error_message = some "Maximum retries exceeded") := by
  refine ⟨?_, ?_, ?_⟩
  · simp only [retryNode]
    split_ifs
    all_goals rfl
  · intro h
    have hroute : routeAfterRetry (retryNode s) = Node.generate := by
      simp only [retryNode]
      split_ifs with h1
      · omega
      · simp [routeAfterRetry, h]
    simp only [step, hroute]
  · intro h
    have hroute : routeAfterRetry (retryNode s) = Node.terminal := by
      simp only [retryNode]
      split_ifs with h1
      · simp [routeAfterRetry]
        omega
      · omega
    have herr : (retryNode s).error_message = some "Maximum retries exceeded" := by
      simp only [retryNode]
      split_ifs with h1
      · rfl
      · omega
    exact ⟨by simp only [step, hroute], herr⟩

/-- C4 (witness): the amended theorem applied with retries remaining
(`0 + 1 < 3`) and with the budget exhausted (`1 ≤ 0 + 1`). -/
theorem C4_witness :
    step ⟨Node.retry, initState "u" 3⟩ .tick
      = some ⟨Node.generate, retryNode (initState "u" 3)⟩ ∧
    step ⟨Node.retry, initState "u" 1⟩ .tick
      = some ⟨Node.terminal, retryNode (initState "u" 1)⟩ ∧
    (retryNode (initState "u" 1)).error_message = some "Maximum retries exceeded" := by
  refine ⟨?_, ?_, ?_⟩
  · exact (C4_retry_increment_and_routing (initState "u" 3)).2.1 (by decide)
  · exact ((C4_retry_increment_and_routing (initState "u" 1)).2.2 (by decide)).1
  · exact ((C4_retry_increment_and_routing (initState "u" 1)).2.2 (by decide)).2

/-- C5: a timeout of the awaited subprocess yields a result record with
`timed_out = true` and exit code `-1`, and a launch failure yields a normal
result record (the executor methods are total functions into result records;
the source catches every exception) with exit code `-1` and the error text in
`stderr` — for the PowerShell, CMD and Bash executor methods alike. -/
theorem C5_executor_timeout_and_launch_failure (max_output_size t : Nat) (m : String) :
    (PowerShellExecutor.execute max_output_size t .timedOut).timed_out = true ∧
    (PowerShellExecutor.execute max_output_size t .timedOut).return_code = -1 ∧
    (PowerShellExecutor.execute max_output_size t (.launchFail m)).return_code = -1 ∧
    (PowerShellExecutor.execute max_output_size t (.launchFail m)).stderr = m ∧
    (PowerShellExecutor.execute max_output_size t (.launchFail m)).error = some m ∧
    (PowerShellExecutor.execute_cmd max_output_size t .timedOut).timed_out = true ∧
    (PowerShellExecutor.execute_cmd max_output_size t .timedOut).return_code = -1 ∧
    (PowerShellExecutor.execute_cmd max_output_size t (.launchFail m)).return_code = -1 ∧
    (PowerShellExecutor.execute_cmd max_output_size t (.launchFail m)).stderr = m ∧
    (PowerShellExecutor.execute_bash max_output_size t .timedOut).timed_out = true ∧
    (PowerShellExecutor.execute_bash max_output_size t .timedOut).return_code = -1 ∧
    (PowerShellExecutor.execute_bash max_output_size t (.launchFail m)).return_code = -1 ∧
    (PowerShellExecutor.execute_bash max_output_size t (.launchFail m)).stderr = m := by
  refine ⟨rfl, rfl, rfl, rfl, rfl, rfl, rfl, rfl, rfl, rfl, rfl, rfl, rfl⟩

/-- C6: with all three shells attempted and failing, the
`try_alternative_shell` node does pick shells in the order powershell, cmd,
bash and auto-confirms each regeneration; on exhaustion it records the error
(whose text is "Execution failed in all shells: powershell, cmd, bash", not
the spec's quoted string) and requests `present` — but the workflow's
unconditional `try_alternative_shell → execute_command` edge ignores that
hint and re-enters the execution stage instead of presenting. -/
theorem C6_exhausted_fallback_reenters_execution :
    (runD (initConfig "list files" 3)
      [.genOk "Get-ChildItem" "lists" [], .human true none,
       .execDone (.completed "" "err" 1), .altGenOk "dir" "cmd version"]).state.shell_type
      = "cmd" ∧
    (runD (initConfig "list files" 3)
      [.genOk "Get-ChildItem" "lists" [], .human true none,
       .execDone (.completed "" "err" 1), .altGenOk "dir" "cmd version"]).state.user_confirmed
      = some true ∧
    (runD (initConfig "list files" 3)
      [.genOk "Get-ChildItem" "lists" [], .human true none,
       .execDone (.completed "" "err" 1), .altGenOk "dir" "cmd version",
       .execDone (.completed "" "err" 1), .altGenOk "ls" "bash version"]).state.shell_type
      = "bash" ∧
    (runD (initConfig "list files" 3)
      [.genOk "Get-ChildItem" "lists" [], .human true none,
       .execDone (.completed "" "err" 1), .altGenOk "dir" "cmd version",
       .execDone (.completed "" "err" 1), .altGenOk "ls" "bash version",
       .execDone (.completed "" "err" 1), .tick]).state.error_message
      = some "Execution failed in all shells: powershell, cmd, bash" ∧
    (runD (initConfig "list files" 3)
      [.genOk "Get-ChildItem" "lists" [], .human true none,
       .execDone (.completed "" "err" 1), .altGenOk "dir" "cmd version",
       .execDone (.completed "" "err" 1), .altGenOk "ls" "bash version",
       .execDone (.completed "" "err" 1), .tick]).state.next_step = "present" ∧
    (runD (initConfig "list files" 3)
      [.genOk "Get-ChildItem" "lists" [], .human true none,
       .execDone (.completed "" "err" 1), .altGenOk "dir" "cmd version",
       .execDone (.completed "" "err" 1), .altGenOk "ls" "bash version",
       .execDone (.completed "" "err" 1), .tick]).stage = Node.execute ∧
    (runD (initConfig "list files" 3)
      [.genOk "Get-ChildItem" "lists" [], .human true none,
       .execDone (.completed "" "err" 1), .altGenOk "dir" "cmd version",
       .execDone (.completed "" "err" 1), .altGenOk "ls" "bash version",
       .execDone (.completed "" "err" 1), .tick]).stage ≠ Node.present := by
  refine ⟨by decide, by decide, by decide, by decide, by decide, by decide, by decide⟩

/-- C7 (counterexample): when every shell fails, the bash shell is executed
twice — once as the third fallback and once more after exhaustion, because
the `try_alternative_shell → execute_command` edge is unconditional — so
"each shell is executed at most once via the fallback chain" fails. -/
theorem C7_counterexample :
    execVisits "bash" (initConfig "list files" 3)
      [.genOk "Get-ChildItem" "lists" [], .human true none,
       .execDone (.completed "" "err" 1), .altGenOk "dir" "cmd version",
       .execDone (.completed "" "err" 1), .altGenOk "ls" "bash version",
       .execDone (.completed "" "err" 1), .tick] = 2 := by
  decide

/-- C7 (amended): in every reachable configuration `attempted_shells`
contains each shell at most once, and no step ever removes a shell from it
(monotone growth); but the last shell can be executed a second time after
exhaustion (see the counterexample). -/
theorem C7_attempted_shells_set_invariant :
    (∀ c, Reachable c → c.state.attempted_shells.Nodup) ∧
    (∀ c e c2, step c e = some c2 →
      ∀ x ∈ c.state.attempted_shells, x ∈ c2.state.attempted_shells) := by
  constructor
  · exact reachable_invariant AttemptedNodup
      (fun ui m => by simp [AttemptedNodup, initConfig, initState])
      step_preserves_AttemptedNodup
  · exact step_attempted_monotone

/-- C7 (witness): the set invariant applied to a concrete fallback run. -/
theorem C7_witness :
    (runD (initConfig "list files" 3)
      [.genOk "Get-ChildItem" "lists" [], .human true none,
       .execDone (.completed "" "err" 1)]).state.attempted_shells.Nodup ∧
    "powershell" ∈ (runD (initConfig "list files" 3)
      [.genOk "Get-ChildItem" "lists" [], .human true none,
       .execDone (.completed "" "err" 1), .altGenOk "dir" "cmd version",
       .execDone (.completed "" "err" 1)]).state.attempted_shells := by
  constructor
  · exact C7_attempted_shells_set_invariant.1 _
      ⟨"list files", 3,
        [.genOk "Get-ChildItem" "lists" [], .human true none,
         .execDone (.completed "" "err" 1)], by decide⟩
  · exact C7_attempted_shells_set_invariant.2
      (runD (initConfig "list files" 3)
        [.genOk "Get-ChildItem" "lists" [], .human true none,
         .execDone (.completed "" "err" 1), .altGenOk "dir" "cmd version"])
      (.execDone (.completed "" "err" 1))
      (runD (initConfig "list files" 3)
        [.genOk "Get-ChildItem" "lists" [], .human true none,
         .execDone (.completed "" "err" 1), .altGenOk "dir" "cmd version",
         .execDone (.completed "" "err" 1)])
      (by decide) "powershell" (by decide)

/-- C8 (counterexample): when the user rejects the command without giving
feedback, the session reaches the clean terminal state with both
`execution_result` and `error_message` absent, refuting the claim that a
terminal state always carries one of them. -/
theorem C8_counterexample :
    (runD (initConfig "list files" 3)
      [.genOk "Get-ChildItem" "lists" [], .human false none]).stage = Node.terminal ∧
    (runD (initConfig "list files" 3)
      [.genOk "Get-ChildItem" "lists" [], .human false none]).state.execution_result
      = none ∧
    (runD (initConfig "list files" 3)
      [.genOk "Get-ChildItem" "lists" [], .human false none]).state.error_message
      = none := by
  refine ⟨by decide, by decide, by decide⟩

/-- C8 (amended): every reachable clean terminal state carries a populated
execution result or a populated error message, except on the
reject-without-feedback path, where the state records the rejection
(`user_confirmed = false` with no truthy feedback) and both are absent. -/
theorem C8_terminal_carries_result_or_error :
    ∀ c, Reachable c → c.stage = Node.terminal →
      c.state.execution_result ≠ none ∨ c.state.error_message ≠ none ∨
        (c.state.user_confirmed = some false ∧ truthy c.state.user_feedback = false) := by
  intro c hc
  exact (reachable_invariant TerminalCarries
    (fun ui m => terminalCarries_other (by simp) (by simp) (by simp) (by simp))
    step_preserves_TerminalCarries c hc).2.2.2

/-- C8 (witness): the amended theorem applied to the retries-exhausted
terminal state, which carries the error message. -/
theorem C8_witness :
    (runD (initConfig "list files" 1)
      [.genOk "Get-ChildItem" "lists" [], .human false (some "wrong path"),
       .tick]).state.execution_result ≠ none ∨
    (runD (initConfig "list files" 1)
      [.genOk "Get-ChildItem" "lists" [], .human false (some "wrong path"),
       .tick]).state.error_message ≠ none ∨
    ((runD (initConfig "list files" 1)
      [.genOk "Get-ChildItem" "lists" [], .human false (some "wrong path"),
       .tick]).state.user_confirmed = some false ∧
     truthy (runD (initConfig "list files" 1)
      [.genOk "Get-ChildItem" "lists" [], .human false (some "wrong path"),
       .tick]).state.user_feedback = false) := by
  exact C8_terminal_carries_result_or_error _
    ⟨"list files", 1,
      [.genOk "Get-ChildItem" "lists" [], .human false (some "wrong path"), .tick],
      by decide⟩ (by decide)

/-- C9: stdout and stderr are each independently truncated at the configured
size ceiling with their truncation markers appended: output within the
ceiling is returned unchanged, larger output is cut at the ceiling before the
marker is appended.  (The source measures the decoded strings with Python
`len`, embedded here as `String.length`.) -/
theorem C9_output_truncation (max_output_size t : Nat) (out err : String) (rc : Int) :
    (out.length ≤ max_output_size →
      (PowerShellExecutor.execute max_output_size t
        (.completed out err rc)).stdout = out) ∧
    (out.length > max_output_size →
      (PowerShellExecutor.execute max_output_size t
        (.completed out err rc)).stdout
        = String.mk (out.data.take max_output_size) ++ "\n... (output truncated)") ∧
    (err.length ≤ max_output_size →
      (PowerShellExecutor.execute max_output_size t
        (.completed out err rc)).stderr = err) ∧
    (err.length > max_output_size →
      (PowerShellExecutor.execute max_output_size t
        (.completed out err rc)).stderr
        = String.mk (err.data.take max_output_size)
            ++ "\n... (error output truncated)") := by
  refine ⟨?_, ?_, ?_, ?_⟩
  · intro h
    show truncOut max_output_size "\n... (output truncated)" out = out
    simp only [truncOut]
    rw [if_neg (by omega)]
  · intro h
    show truncOut max_output_size "\n... (output truncated)" out = _
    simp only [truncOut]
    rw [if_pos (by omega)]
  · intro h
    show truncOut max_output_size "\n... (error output truncated)" err = err
    simp only [truncOut]
    rw [if_neg (by omega)]
  · intro h
    show truncOut max_output_size "\n... (error output truncated)" err = _
    simp only [truncOut]
    rw [if_pos (by omega)]

/-- C9 (witness): the truncation theorem applied at ceiling 3 to a 6-character
and a 2-character output. -/
theorem C9_witness :
    (PowerShellExecutor.execute 3 30 (.completed "abcdef" "wxyz" 0)).stdout
      = String.mk ("abcdef".data.take 3) ++ "\n... (output truncated)" ∧
    (PowerShellExecutor.execute 3 30 (.completed "ab" "wx" 0)).stdout = "ab" ∧
    (PowerShellExecutor.execute 3 30 (.completed "ab" "wxyz" 0)).stderr
      = String.mk ("wxyz".data.take 3) ++ "\n... (error output truncated)" ∧
    (PowerShellExecutor.execute 3 30 (.completed "ab" "wx" 0)).stderr = "wx" := by
  refine ⟨?_, ?_, ?_, ?_⟩
  · exact (C9_output_truncation 3 30 "abcdef" "wxyz" 0).2.1 (by decide)
  · exact (C9_output_truncation 3 30 "ab" "wx" 0).1 (by decide)
  · exact (C9_output_truncation 3 30 "ab" "wxyz" 0).2.2.2 (by decide)
  · exact (C9_output_truncation 3 30 "ab" "wx" 0).2.2.1 (by decide)

/-- C10: in every reachable configuration `next_step` is never
`intelligent_retry` (no node update writes it), so `route_after_execution`
never returns the intelligent-retry target and the intelligent-retry stage is
unreachable. -/
theorem C10_intelligent_retry_unreachable :
    ∀ c, Reachable c →
      c.state.next_step ≠ "intelligent_retry" ∧
      routeAfterExecution c.state ≠ Node.intelligentRetry ∧
      c.stage ≠ Node.intelligentRetry := by
  intro c hc
  have h := reachable_invariant NoIntelligentRetry
    (fun ui m => by
      constructor
      · simp [initConfig, initState]
      · simp [initConfig])
    step_preserves_NoIntelligentRetry c hc
  exact ⟨h.1, routeAfterExecution_ne_intel h.1, h.2⟩

/-- C10 (witness): the unreachability theorem applied to a concrete
post-execution configuration. -/
theorem C10_witness :
    (runD (initConfig "list files" 3)
      [.genOk "Get-ChildItem" "lists" [], .human true none,
       .execDone (.completed "out" "" 0)]).state.next_step ≠ "intelligent_retry" ∧
    routeAfterExecution (runD (initConfig "list files" 3)
      [.genOk "Get-ChildItem" "lists" [], .human true none,
       .execDone (.completed "out" "" 0)]).state ≠ Node.intelligentRetry ∧
    (runD (initConfig "list files" 3)
      [.genOk "Get-ChildItem" "lists" [], .human true none,
       .execDone (.completed "out" "" 0)]).stage ≠ Node.intelligentRetry := by
  exact C10_intelligent_retry_unreachable _
    ⟨"list files", 3,
      [.genOk "Get-ChildItem" "lists" [], .human true none,
       .execDone (.completed "out" "" 0)], by decide⟩

end MachineConnector
